import Mathlib

/-!
Verification development for the libcompose manifest merge engine
(`config/merge.go`).  The Go source is embedded shallowly: Go maps of
YAML data become association lists (a determinization of Go's unordered
map iteration), machine integers become `Int`, fallible operations
return `Except String`, and collaborators that live outside the merge
engine (YAML unmarshalling, interpolation, the per-version service
mergers, structural conversion) are passed in as explicit function
arguments of the model.
-/

namespace Libcompose

/-- Untyped YAML-ish value flowing through interpolation and merge:
scalar (string / bool / integer), ordered sequence, or mapping
(association list from string keys, preserving an iteration order). -/
inductive Value where
  | str (s : String)
  | bool (b : Bool)
  | int (n : Int)
  | seq (xs : List Value)
  | map (xs : List (String × Value))
deriving Repr

/-- `RawService`: mapping from field name to untyped value. -/
abbrev RawService := List (String × Value)

/-- `RawServiceMap`: mapping from service name to `RawService`. -/
abbrev RawServiceMap := List (String × RawService)

/-- Splitting a character list at every occurrence of a separator
character; embeds Go `strings.Split` for a one-character separator
(`Split("", sep)` yields `[""]`, and separators at the ends yield empty
fields, exactly as in Go). -/
def splitOnChar (sep : Char) : List Char → List (List Char)
  | [] => [[]]
  | c :: rest =>
    if c = sep then [] :: splitOnChar sep rest
    else
      match splitOnChar sep rest with
      | [] => [[c]]
      | g :: gs => (c :: g) :: gs

/-- Go `strings.Split(s, sep)` for a one-character separator. -/
def stringsSplit (s : String) (sep : Char) : List String :=
  (splitOnChar sep s.data).map (fun cs => ⟨cs⟩)

/-- ASCII whitespace recognized by Go `unicode.IsSpace` (the non-ASCII
space characters NEL and NBSP are outside the embedded character
range used by the manifests and are omitted). -/
def goIsSpace (c : Char) : Bool :=
  c = ' ' || c = '\t' || c = '\n' || c = '\x0b' || c = '\x0c' || c = '\r'

/-- Go `strings.TrimSpace`. -/
def stringsTrimSpace (s : String) : String :=
  ⟨((s.data.dropWhile goIsSpace).reverse.dropWhile goIsSpace).reverse⟩

/-- Go `strings.HasPrefix(s, p)`. -/
def stringsHasPre (s p : String) : Bool :=
  p.data.isPrefixOf s.data

/-- Embedding of Go `strconv.Atoi`: an optional ASCII sign followed by
one or more ASCII digits, rejected when empty, when a non-digit occurs,
or when the value falls outside the signed 64-bit range (Go reports
`ErrRange` there, which the caller surfaces as an error). -/
def digitsVal : List Char → Option Nat → Option Nat
  | [], acc => acc
  | c :: rest, acc =>
    match acc with
    | none => none
    | some n => if c.isDigit then digitsVal rest (some (n * 10 + (c.toNat - 48))) else none

/-- Go `strconv.Atoi`. -/
def Atoi (s : String) : Except String Int :=
  let signDigits : Bool × List Char :=
    match s.data with
    | '+' :: rest => (false, rest)
    | '-' :: rest => (true, rest)
    | cs => (false, cs)
  match signDigits with
  | (neg, ds) =>
    if ds.isEmpty then .error ("strconv.Atoi: parsing " ++ s ++ ": invalid syntax")
    else
      match digitsVal ds (some 0) with
      | none => .error ("strconv.Atoi: parsing " ++ s ++ ": invalid syntax")
      | some n =>
        let v : Int := if neg then -(n : Int) else (n : Int)
        if v < -(2 ^ 63) ∨ 2 ^ 63 - 1 < v then
          .error ("strconv.Atoi: parsing " ++ s ++ ": value out of range")
        else .ok v

/-- `getComposeMajorVersion` from `config/merge.go`: empty string is
major version 1; one dot-separated part is parsed whole; two parts
parse only the first; anything longer is an error. -/
def getComposeMajorVersion (version : String) : Except String Int :=
  if version = "" then .ok 1
  else
    let parts := stringsSplit version '.'
    if parts.length = 1 then Atoi version
    else if parts.length = 2 then Atoi (parts.getD 0 "")
    else .error ("Invalid version string, expected single integer or dot delimited int.int. Got: " ++ version)

/-- The `noMerge` list declared at the top of `config/merge.go`. -/
def noMerge : List String := ["links", "volumes_from"]

/-- First value stored under a key in an association-list mapping
(embeds a Go map read `m[k]`). -/
def lookupAssoc : List (String × Value) → String → Option Value
  | [], _ => none
  | kv :: rest, k => if kv.1 = k then some kv.2 else lookupAssoc rest k

/-- Replaces the value stored under a key in an association-list
mapping (embeds a Go map write `m[k] = v` for a key already present). -/
def replaceAssoc : List (String × Value) → String → Value → List (String × Value)
  | [], _, _ => []
  | kv :: rest, k, v => if kv.1 = k then (k, v) :: rest else kv :: replaceAssoc rest k v

mutual

/-- Modelled from the spec: the value-level `merge(existing, value)`
function is not under `src/` (only its caller `mergeConfig` is).  Per
the spec, two sequences concatenate with the base elements first, two
mappings merge recursively key by key, and in every other case the
incoming value wins.  As at the call site in `mergeConfig`, it receives
only the two values and no field name. -/
def merge : Value → Value → Value
  | .seq xs, .seq ys => .seq (xs ++ ys)
  | .map xs, .map ys => .map (mergeAssocList xs ys)
  | _, v => v

/-- Folds the incoming mapping entries into the base mapping one by
one (the recursive mapping case of `merge`): an existing key's value
is merged recursively, a fresh key is added. -/
def mergeAssocList (base : List (String × Value)) : List (String × Value) → List (String × Value)
  | [] => base
  | (k, v) :: rest =>
    match lookupAssoc base k with
    | some existing => mergeAssocList (replaceAssoc base k (merge existing v)) rest
    | none => mergeAssocList (base ++ [(k, v)]) rest

end

/-- `mergeConfig(baseService, serviceData)` from `config/merge.go`:
for each field of the incoming service, a field absent from the base is
set directly, a field present in both is merged by `merge`.  Every
field is treated alike; the function never consults `noMerge`. -/
def mergeConfig (baseService serviceData : RawService) : RawService :=
  serviceData.foldl
    (fun base kv =>
      match lookupAssoc base kv.1 with
      | some existing => replaceAssoc base kv.1 (merge existing kv.2)
      | none => base ++ [(kv.1, kv.2)])
    baseService

/-! ### Extends normalization (Merge, lines 90-100) -/

/-- One field of the extends-normalization loop in `Merge`: a field
named `extends` whose value is a bare string is rewritten in place to
the structured mapping `{service: <that string>}`; every other field,
and an `extends` value of any other kind, is left untouched (the Go
code checks `reflect.TypeOf(value).Kind() == reflect.String`). -/
def normalizeExtendsEntry (key : String) (value : Value) : Value :=
  if key = "extends" then
    match value with
    | .str s => .map [("service", .str s)]
    | v => v
  else value

/-- The extends-normalization loop applied to one service's data. -/
def normalizeExtendsService (data : RawService) : RawService :=
  data.map (fun kv => (kv.1, normalizeExtendsEntry kv.1 kv.2))

/-- The extends-normalization loop of `Merge` over the whole raw
service map. -/
def normalizeExtends (services : RawServiceMap) : RawServiceMap :=
  services.map (fun sv => (sv.1, normalizeExtendsService sv.2))

/-! ### Environment-file resolution (`readEnvFile`) -/

/-- `strings.SplitAfter(line, "=")[0]`: the characters of the line up
to and including the first `=`, or the whole line when it has none. -/
def splitAfterEq : List Char → List Char
  | [] => []
  | c :: rest => if c = '=' then [c] else c :: splitAfterEq rest

/-- The key prefix compared against existing entries in `readEnvFile`. -/
def keyOf (line : String) : String :=
  ⟨splitAfterEq line.data⟩

/-- The scanner body of `readEnvFile` for one line of an env file: the
line is trimmed; an empty or `#`-prefixed line is skipped; otherwise
the line is appended to the entry list only when no existing entry
already starts with its key prefix. -/
def processLine (vars : List String) (rawLine : String) : List String :=
  let line := stringsTrimSpace rawLine
  if 0 < line.length && !(stringsHasPre line "#") then
    let key := keyOf line
    if vars.any (fun v => stringsHasPre v key) then vars
    else vars ++ [line]
  else vars

/-- Scanning one env file's content line by line (`bufio.Scanner`
splits the content at newlines; the trailing empty field produced by a
final newline is skipped by the empty-line guard exactly as the
scanner's absent final token would be). -/
def processContent (vars : List String) (content : String) : List String :=
  (stringsSplit content '\n').foldl processLine vars

/-- The env-file loop of `readEnvFile`: Go iterates
`for i := len(envFiles) - 1; i >= 0; i--`, looking each file up and
scanning its content; a lookup failure aborts.  `n` is the number of
files still to process, so the call with `n = envFiles.length`
processes index `n-1` (the last-declared file) first. -/
def readEnvLoop (lookup : String → String → Except String String) (inFile : String)
    (envFiles : List String) : Nat → List String → Except String (List String)
  | 0, vars => .ok vars
  | n + 1, vars =>
    match lookup (envFiles.getD n "") inFile with
    | .error e => .error e
    | .ok content => readEnvLoop lookup inFile envFiles n (processContent vars content)

/-- Modelled from the spec: the `Stringorslice` unmarshalling used by
`utils.Convert(serviceData["env_file"], &envFiles)` lives in the
repository's `yaml` package, which is not under `src/`.  Per the spec
it "normalizes `env_file` into an ordered sequence of file
references": a bare string becomes a one-element sequence, a sequence
of strings is taken as is, anything else fails. -/
def convertStringorslice : Value → Except String (List String)
  | .str s => .ok [s]
  | .seq xs =>
    xs.foldr
      (fun x acc =>
        match x, acc with
        | .str s, .ok rest => .ok (s :: rest)
        | _, .ok _ => .error "Cannot unmarshal to Stringorslice"
        | _, .error e => .error e)
      (.ok [])
  | _ => .error "Failed to unmarshal Stringorslice"

/-- Modelled from the spec: the `MaporEqualSlice` unmarshalling used by
`utils.Convert(serviceData["environment"], &vars)` lives in the
repository's `yaml` package, which is not under `src/`.  Per the spec
it "seeds an ordered list of KEY=VALUE entries from the service's own
explicit `environment` field": a sequence of strings is taken as is, a
mapping of string values becomes `k=v` entries, anything else fails. -/
def convertMaporEqualSlice : Value → Except String (List String)
  | .seq xs =>
    xs.foldr
      (fun x acc =>
        match x, acc with
        | .str s, .ok rest => .ok (s :: rest)
        | _, .ok _ => .error "Cannot unmarshal to MaporEqualSlice"
        | _, .error e => .error e)
      (.ok [])
  | .map kvs =>
    kvs.foldr
      (fun kv acc =>
        match kv.2, acc with
        | .str s, .ok rest => .ok ((kv.1 ++ "=" ++ s) :: rest)
        | _, .ok _ => .error "Cannot unmarshal to MaporEqualSlice"
        | _, .error e => .error e)
      (.ok [])
  | _ => .error "Failed to unmarshal MaporEqualSlice"

/-- Writes a field of a service (`serviceData["environment"] = vars`):
an existing entry is replaced in place, a missing one appended. -/
def setAssoc (data : RawService) (k : String) (v : Value) : RawService :=
  match lookupAssoc data k with
  | some _ => replaceAssoc data k v
  | none => data ++ [(k, v)]

/-- `readEnvFile(resourceLookup, inFile, serviceData)` from
`config/merge.go`.  The `ResourceLookup` collaborator is a function
from the referenced file name and the referencing manifest file to the
file's content; a `none` lookup embeds a nil `ResourceLookup`. -/
def readEnvFile (resourceLookup : Option (String → String → Except String String))
    (inFile : String) (serviceData : RawService) : Except String RawService :=
  match lookupAssoc serviceData "env_file" with
  | none => .ok serviceData
  | some envFileValue =>
    match convertStringorslice envFileValue with
    | .error e => .error e
    | .ok envFiles =>
      if envFiles.length = 0 then .ok serviceData
      else
        match resourceLookup with
        | none => .error ("Can not use env_file in file " ++ inFile ++ " no mechanism provided to load files")
        | some lookup =>
          match
            (match lookupAssoc serviceData "environment" with
             | none => Except.ok []
             | some envValue => convertMaporEqualSlice envValue) with
          | .error e => .error e
          | .ok vars =>
            match readEnvLoop lookup inFile envFiles envFiles.length vars with
            | .error e => .error e
            | .ok vars => .ok (setAssoc serviceData "environment" (.seq (vars.map .str)))

/-! ### The `Merge` pipeline (`Merge`, `CreateConfig`, `adjustValues`)

`Merge` drives the collaborators that live outside `config/merge.go`
(YAML unmarshalling, `Interpolate`, `MergeServicesV1`/`MergeServicesV2`,
`ConvertServices`, `utils.Convert`); the model receives them as
explicit function arguments and embeds only the control flow and the
code of `config/merge.go` itself. -/

/-- Structured service configuration as far as `config/merge.go`
inspects it: `adjustValues` reads and writes only the `Restart` field;
every other field is kept as an opaque payload. -/
structure ServiceConfig where
  Restart : String
  fields : List (String × Value)
deriving Repr

/-- `map[string]*ServiceConfig`, determinized as an association list. -/
abbrev SvcMap := List (String × ServiceConfig)

/-- The intermediate v1 service map produced by `MergeServicesV1`
before `ConvertServices`; its structure is opaque to
`config/merge.go`, which only passes it along. -/
abbrev V1Map := List (String × RawService)

/-- `map[string]*VolumeConfig` as produced by `utils.Convert`; opaque
to `config/merge.go`. -/
abbrev VolMap := List (String × Value)

/-- `map[string]*NetworkConfig` as produced by `utils.Convert`; opaque
to `config/merge.go`. -/
abbrev NetMap := List (String × Value)

/-- `ParseOptions` from the config package. -/
structure ParseOptions where
  Interpolate : Bool
  Validate : Bool
  Preprocess : Option (RawServiceMap → Except String RawServiceMap)
  Postprocess : Option (SvcMap → Except String SvcMap)

/-- `defaultParseOptions` from `config/merge.go`: interpolation and
validation on, no hooks. -/
def defaultParseOptions : ParseOptions :=
  { Interpolate := true, Validate := true, Preprocess := none, Postprocess := none }

/-- The `Config` structure as produced by the generic YAML unmarshal
in `CreateConfig`: `volumes`/`networks` may still be nil (`none`). -/
structure RawConfig where
  version : String
  services : RawServiceMap
  volumes : Option (List (String × Value))
  networks : Option (List (String × Value))

/-- A `Config` after `CreateConfig`'s defaulting: `volumes` and
`networks` are never nil. -/
structure Config where
  version : String
  services : RawServiceMap
  volumes : List (String × Value)
  networks : List (String × Value)

/-- `CreateConfig` from `config/merge.go`, parameterized by the two
unmarshal results it depends on: the generic parse of the document and
the flat re-parse of the same bytes used for major versions below 2.
Nil `volumes`/`networks` default to empty mappings. -/
def CreateConfig (unmarshalConfig : Except String RawConfig)
    (unmarshalRawMap : Except String RawServiceMap) : Except String Config :=
  match unmarshalConfig with
  | .error e => .error e
  | .ok rc =>
    match getComposeMajorVersion rc.version with
    | .error e => .error e
    | .ok major =>
      if major < 2 then
        match unmarshalRawMap with
        | .error e => .error e
        | .ok flat => .ok ⟨rc.version, flat, rc.volumes.getD [], rc.networks.getD []⟩
      else .ok ⟨rc.version, rc.services, rc.volumes.getD [], rc.networks.getD []⟩

/-- The interpolation loop over one service's fields: `Interpolate`
(outside `src/`, passed in as `ip`) is applied to every field value,
keyed by the field name; the first failure aborts. -/
def interpolateRawService (ip : String → Value → Except String Value) : RawService → Except String RawService
  | [] => .ok []
  | (k, v) :: rest =>
    match ip k v with
    | .error e => .error e
    | .ok v2 =>
      match interpolateRawService ip rest with
      | .error e => .error e
      | .ok rest2 => .ok ((k, v2) :: rest2)

/-- `InterpolateRawServiceMap` from `config/merge.go`: interpolates
every field of every service. -/
def InterpolateRawServiceMap (ip : String → Value → Except String Value) : RawServiceMap → Except String RawServiceMap
  | [] => .ok []
  | (name, data) :: rest =>
    match interpolateRawService ip data with
    | .error e => .error e
    | .ok data2 =>
      match InterpolateRawServiceMap ip rest with
      | .error e => .error e
      | .ok rest2 => .ok ((name, data2) :: rest2)

/-- The interpolation loops over the `volumes`/`networks` sections of
`Merge` (lines 107-119): each entry's value is interpolated keyed by
its name. -/
def interpolateSection (ip : String → Value → Except String Value) : List (String × Value) → Except String (List (String × Value))
  | [] => .ok []
  | (k, v) :: rest =>
    match ip k v with
    | .error e => .error e
    | .ok v2 =>
      match interpolateSection ip rest with
      | .error e => .error e
      | .ok rest2 => .ok ((k, v2) :: rest2)

/-- `adjustValues` from `config/merge.go`: the YAML parser turns the
unquoted literal `no` into `"false"`, which is not a valid restart
policy, so a `Restart` field equal to `"false"` is rewritten to
`"no"`.  Nothing else is touched. -/
def adjustValues (configs : SvcMap) : SvcMap :=
  configs.map (fun nc =>
    if nc.2.Restart = "false" then (nc.1, { nc.2 with Restart := "no" }) else nc)

/-- The collaborators `Merge` drives, abstracted as functions:
unmarshalling of the document bytes, `Interpolate`,
`MergeServicesV2`, `MergeServicesV1`, `ConvertServices`, and the two
`utils.Convert` calls for volumes and networks. -/
structure MergeArgs where
  unmarshalConfig : Except String RawConfig
  unmarshalRawMap : Except String RawServiceMap
  interpolate : String → Value → Except String Value
  mergeServicesV2 : RawServiceMap → ParseOptions → Except String SvcMap
  mergeServicesV1 : RawServiceMap → ParseOptions → Except String V1Map
  convertServices : V1Map → Except String SvcMap
  convertVolumes : List (String × Value) → Except String VolMap
  convertNetworks : List (String × Value) → Except String NetMap

/-- Outcome of `Merge`.  `ret` carries the five Go return values
`(version, services, volumes, networks, error)` with nil maps as
`none`; `fatal` is the `logrus.Fatal` process abort on the version-3
branch, which never returns to the caller. -/
inductive MergeRet where
  | ret (version : String) (services : Option SvcMap) (volumes : Option VolMap)
      (networks : Option NetMap) (err : Option String)
  | fatal (msg : String)
deriving Repr

/-- The option defaulting at the top of `Merge`: a nil `options`
argument is replaced by `defaultParseOptions`. -/
def optionsOrDefault : Option ParseOptions → ParseOptions
  | none => defaultParseOptions
  | some o => o

/-- The stages of `Merge` before the version dispatch (lines 84-128):
`CreateConfig`, the extends-normalization loop, the optional
interpolation of services, volumes and networks, and the optional
`Preprocess` hook.  Returns the version string and the prepared
services/volumes/networks, or the first error. -/
def mergePrepare (a : MergeArgs) (options : ParseOptions) :
    Except String (String × RawServiceMap × List (String × Value) × List (String × Value)) :=
  match CreateConfig a.unmarshalConfig a.unmarshalRawMap with
  | .error e => .error e
  | .ok config =>
    match
      ((if options.Interpolate then
        match InterpolateRawServiceMap a.interpolate (normalizeExtends config.services) with
        | .error e => .error e
        | .ok rs =>
          match interpolateSection a.interpolate config.volumes with
          | .error e => .error e
          | .ok vols =>
            match interpolateSection a.interpolate config.networks with
            | .error e => .error e
            | .ok nets => .ok (rs, vols, nets)
      else .ok (normalizeExtends config.services, config.volumes, config.networks)) :
        Except String (RawServiceMap × List (String × Value) × List (String × Value))) with
    | .error e => .error e
    | .ok (rs, vols, nets) =>
      match
        (match options.Preprocess with
         | none => Except.ok rs
         | some pre => pre rs) with
      | .error e => .error e
      | .ok rs => .ok (config.version, rs, vols, nets)

/-- `Merge` from `config/merge.go`.  Every error site of the source
returns `("", nil, nil, nil, err)`, embedded as
`.ret "" none none none (some e)`; the version-3 branch of the switch
calls `logrus.Fatal`, embedded as `.fatal`. -/
def Merge (a : MergeArgs) (options? : Option ParseOptions) : MergeRet :=
  match mergePrepare a (optionsOrDefault options?) with
  | .error e => .ret "" none none none (some e)
  | .ok (version, baseRawServices, vols, nets) =>
    match getComposeMajorVersion version with
    | .error e => .ret "" none none none (some e)
    | .ok major =>
      if major = 3 then .fatal "Note: Compose file version 3 is not yet implemented"
      else
        match
          (if major = 2 then a.mergeServicesV2 baseRawServices (optionsOrDefault options?)
           else
             match a.mergeServicesV1 baseRawServices (optionsOrDefault options?) with
             | .error e => .error e
             | .ok v1 => a.convertServices v1) with
        | .error e => .ret "" none none none (some e)
        | .ok serviceConfigs =>
          match
            (match (optionsOrDefault options?).Postprocess with
             | none => Except.ok (adjustValues serviceConfigs)
             | some post => post (adjustValues serviceConfigs)) with
          | .error e => .ret "" none none none (some e)
          | .ok serviceConfigs =>
            match a.convertVolumes vols with
            | .error e => .ret "" none none none (some e)
            | .ok volumes =>
              match a.convertNetworks nets with
              | .error e => .ret "" none none none (some e)
              | .ok networks =>
                .ret version (some serviceConfigs) (some volumes) (some networks) none


/-- True exactly on the `logrus.Fatal` process-abort outcome. -/
def MergeRet.isFatal : MergeRet → Bool
  | .fatal _ => true
  | .ret _ _ _ _ _ => false

/-- True exactly when `Merge` returns a non-nil error to its caller. -/
def MergeRet.returnsError : MergeRet → Bool
  | .ret _ _ _ _ (some _) => true
  | _ => false

end Libcompose

namespace Libcompose

/-! ## Helper lemmas -/

/-- Every step of the env-file scanner either keeps the entry list or
appends exactly the trimmed line at its end. -/
lemma processLine_prefix (vars : List String) (line : String) :
    ∃ rest, processLine vars line = vars ++ rest := by
  unfold processLine
  dsimp only
  split_ifs
  · exact ⟨[], by simp⟩
  · exact ⟨[stringsTrimSpace line], rfl⟩
  · exact ⟨[], by simp⟩

/-- Folding the scanner over any list of lines only ever appends. -/
lemma foldl_processLine_prefix (lines : List String) :
    ∀ vars, ∃ rest, lines.foldl processLine vars = vars ++ rest := by
  induction lines with
  | nil => exact fun vars => ⟨[], by simp⟩
  | cons l ls ih =>
    intro vars
    obtain ⟨r0, h0⟩ := processLine_prefix vars l
    obtain ⟨r1, h1⟩ := ih (processLine vars l)
    rw [h0] at h1
    exact ⟨r0 ++ r1, by rw [List.foldl_cons, h0, h1, List.append_assoc]⟩

/-- Scanning one env file's content only ever appends entries. -/
lemma processContent_prefix (vars : List String) (content : String) :
    ∃ rest, processContent vars content = vars ++ rest := by
  unfold processContent
  exact foldl_processLine_prefix _ vars

/-- Folding several env files' contents only ever appends entries. -/
lemma foldl_processContent_prefix (contents : String → String) (fs : List String) :
    ∀ vars, ∃ rest,
      fs.foldl (fun vs f => processContent vs (contents f)) vars = vars ++ rest := by
  induction fs with
  | nil => exact fun vars => ⟨[], by simp⟩
  | cons f fs ih =>
    intro vars
    obtain ⟨r0, h0⟩ := processContent_prefix vars (contents f)
    obtain ⟨r1, h1⟩ := ih (processContent vars (contents f))
    rw [h0] at h1
    exact ⟨r0 ++ r1, by rw [List.foldl_cons, h0, h1, List.append_assoc]⟩

/-- The downward-counting env-file loop with an always-succeeding
lookup equals a left fold over the reversed file list: the
last-declared file is processed first. -/
lemma readEnvLoop_eq_foldl_reverse (contents : String → String) (inFile : String)
    (files : List String) :
    ∀ n, n ≤ files.length → ∀ vars,
      readEnvLoop (fun f _ => .ok (contents f)) inFile files n vars
        = .ok (((files.take n).reverse).foldl
            (fun vs f => processContent vs (contents f)) vars) := by
  intro n
  induction n with
  | zero => intro _ vars; simp [readEnvLoop]
  | succ n ih =>
    intro hn vars
    have hlt : n < files.length := by omega
    rw [readEnvLoop]
    dsimp only
    rw [ih (by omega)]
    have hsome : files[n]? = some files[n] := List.getElem?_eq_getElem hlt
    have hgetD : files.getD n "" = files[n] := by
      rw [List.getD_eq_getElem?_getD, hsome, Option.getD_some]
    have htake : (files.take (n + 1)).reverse
        = files.getD n "" :: (files.take n).reverse := by
      rw [List.take_succ, hsome, hgetD, Option.toList_some, List.reverse_append,
        List.reverse_singleton, List.singleton_append]
    rw [htake]
    rfl

end Libcompose

namespace Libcompose

/-! ## Claim C4: major-version classification -/

/-- C4 counterexample: the claim demands a FormatError for any version
whose tokens are not all integers, but the two-token version "2.x" has
the non-integer token "x" and still classifies as major version 2 —
the second token is never parsed. -/
theorem c4_counterexample :
    getComposeMajorVersion "2.x" = Except.ok 2 ∧
    Atoi "x" = Except.error "strconv.Atoi: parsing x: invalid syntax" :=
  ⟨rfl, rfl⟩

/-- C4 (amended): classification yields 1 for the empty string, the
parsed integer for a single token, and, for exactly two dot-delimited
tokens, the parsed first token regardless of the second token's shape;
the FormatError arises only for three or more dot-separated parts (or
from `Atoi` rejecting the one token it actually parses). -/
theorem c4_version_classification (s : String) :
    getComposeMajorVersion "" = Except.ok 1 ∧
    (s ≠ "" → (stringsSplit s '.').length = 1 → getComposeMajorVersion s = Atoi s) ∧
    (s ≠ "" → (stringsSplit s '.').length = 2 →
      getComposeMajorVersion s = Atoi ((stringsSplit s '.').getD 0 "")) ∧
    (s ≠ "" → 3 ≤ (stringsSplit s '.').length →
      getComposeMajorVersion s
        = Except.error ("Invalid version string, expected single integer or dot delimited int.int. Got: " ++ s)) ∧
    getComposeMajorVersion "2" = Except.ok 2 ∧
    getComposeMajorVersion "2.1" = Except.ok 2 ∧
    getComposeMajorVersion "3" = Except.ok 3 := by
  refine ⟨rfl, ?_, ?_, ?_, rfl, rfl, rfl⟩
  · intro h1 h2
    simp [getComposeMajorVersion, h1, h2]
  · intro h1 h2
    simp [getComposeMajorVersion, h1, h2]
  · intro h1 h2
    have hne1 : (stringsSplit s '.').length ≠ 1 := by omega
    have hne2 : (stringsSplit s '.').length ≠ 2 := by omega
    simp [getComposeMajorVersion, h1, hne1, hne2]

/-- C4 witness: the classification theorem applied at the concrete
versions "2", "2.x" and "1.2.3". -/
theorem c4_version_classification_witness :
    getComposeMajorVersion "2" = Atoi "2" ∧
    getComposeMajorVersion "2.x" = Atoi ((stringsSplit "2.x" '.').getD 0 "") ∧
    getComposeMajorVersion "1.2.3"
      = Except.error ("Invalid version string, expected single integer or dot delimited int.int. Got: " ++ "1.2.3") :=
  ⟨(c4_version_classification "2").2.1 (by decide) rfl,
   (c4_version_classification "2.x").2.2.1 (by decide) rfl,
   (c4_version_classification "1.2.3").2.2.2.1 (by decide) (by decide)⟩

/-! ## Claim C5: extends normalization -/

/-- C5: before merge, an `extends` field holding a bare string is
rewritten to the structured mapping `{service: <string>}`, an
`extends` value already in mapping form is untouched, non-`extends`
fields are untouched, and the shorthand and structured forms
normalize to an identical shape. -/
theorem c5_extends_normalized (s k : String) (v : Value) (kvs : List (String × Value))
    (data : RawService) :
    normalizeExtendsEntry "extends" (Value.str s) = Value.map [("service", Value.str s)] ∧
    normalizeExtendsEntry "extends" (Value.map kvs) = Value.map kvs ∧
    (k ≠ "extends" → normalizeExtendsEntry k v = v) ∧
    normalizeExtendsService (("extends", Value.str s) :: data)
      = ("extends", Value.map [("service", Value.str s)]) :: normalizeExtendsService data ∧
    normalizeExtendsService [("extends", Value.str s)]
      = normalizeExtendsService [("extends", Value.map [("service", Value.str s)])] := by
  refine ⟨rfl, rfl, ?_, rfl, rfl⟩
  intro hk
  simp [normalizeExtendsEntry, hk]

/-- C5 witness: the normalization theorem applied at a concrete
non-`extends` field and a concrete shorthand `extends`. -/
theorem c5_extends_normalized_witness :
    normalizeExtendsEntry "image" (Value.str "busybox") = Value.str "busybox" ∧
    normalizeExtendsEntry "extends" (Value.str "base") = Value.map [("service", Value.str "base")] :=
  ⟨(c5_extends_normalized "base" "image" (Value.str "busybox") [] []).2.2.1 (by decide),
   (c5_extends_normalized "base" "image" (Value.str "busybox") [] []).1⟩

end Libcompose

namespace Libcompose

/-! ## Claim C1: per-field merge policy of `mergeConfig` -/

/-- C1 counterexample: when both sides define `links` as a sequence,
`mergeConfig` concatenates them like any other sequence — the merged
value is `[y, x]`, not the wholesale replacement `[x]` the claim
demands for the `links` field. -/
theorem c1_counterexample :
    mergeConfig [("links", Value.seq [Value.str "y"])] [("links", Value.seq [Value.str "x"])]
      = [("links", Value.seq [Value.str "y", Value.str "x"])] ∧
    Value.seq [Value.str "y", Value.str "x"] ≠ Value.seq [Value.str "x"] := by
  constructor
  · simp [mergeConfig, lookupAssoc, replaceAssoc, merge]
  · simp

/-- C1 (amended): `mergeConfig` sets each incoming field absent from
the base directly and merges each field present in both by the uniform
value rule — sequences concatenate base-first, mappings merge
recursively key by key, every other pairing lets the incoming value
win — with no special case: `links` and `volumes_from` concatenate
like every other sequence field (`noMerge` is never consulted). -/
theorem c1_mergeConfig_uniform (xs ys : List Value) (as bs : List (String × Value))
    (s k : String) (b : Bool) (n : Int) (v : Value) (base : RawService) :
    merge (Value.seq xs) (Value.seq ys) = Value.seq (xs ++ ys) ∧
    merge (Value.map as) (Value.map bs) = Value.map (mergeAssocList as bs) ∧
    merge (Value.str s) v = v ∧
    merge (Value.bool b) v = v ∧
    merge (Value.int n) v = v ∧
    merge (Value.seq xs) (Value.map bs) = Value.map bs ∧
    merge (Value.map as) (Value.seq ys) = Value.seq ys ∧
    (lookupAssoc base k = none → mergeConfig base [(k, v)] = base ++ [(k, v)]) ∧
    (∀ existing, lookupAssoc base k = some existing →
      mergeConfig base [(k, v)] = replaceAssoc base k (merge existing v)) ∧
    mergeConfig [(k, Value.seq xs)] [(k, Value.seq ys)] = [(k, Value.seq (xs ++ ys))] := by
  refine ⟨?_, ?_, ?_, ?_, ?_, ?_, ?_, ?_, ?_, ?_⟩
  · simp [merge]
  · simp [merge]
  · cases v <;> simp [merge]
  · cases v <;> simp [merge]
  · cases v <;> simp [merge]
  · simp [merge]
  · simp [merge]
  · intro h
    simp [mergeConfig, h]
  · intro existing h
    simp [mergeConfig, h]
  · simp [mergeConfig, lookupAssoc, replaceAssoc, merge]

/-- C1 witness: the uniform-merge theorem applied at concrete inputs:
a fresh field is appended, and an existing `volumes_from` sequence
concatenates with the incoming one. -/
theorem c1_mergeConfig_uniform_witness :
    mergeConfig [("image", Value.str "a")] [("links", Value.seq [Value.str "x"])]
      = [("image", Value.str "a"), ("links", Value.seq [Value.str "x"])] ∧
    mergeConfig [("k1", Value.str "old")] [("k1", Value.str "new")]
      = replaceAssoc [("k1", Value.str "old")] "k1" (merge (Value.str "old") (Value.str "new")) ∧
    mergeConfig [("volumes_from", Value.seq [Value.str "y"])]
        [("volumes_from", Value.seq [Value.str "x"])]
      = [("volumes_from", Value.seq [Value.str "y", Value.str "x"])] :=
  ⟨((c1_mergeConfig_uniform [] [] [] [] "" "links" false 0 (Value.seq [Value.str "x"])
      [("image", Value.str "a")]).2.2.2.2.2.2.2.1) rfl,
   ((c1_mergeConfig_uniform [] [] [] [] "" "k1" false 0 (Value.str "new")
      [("k1", Value.str "old")]).2.2.2.2.2.2.2.2.1) (Value.str "old") rfl,
   (c1_mergeConfig_uniform [Value.str "y"] [Value.str "x"] [] [] "" "volumes_from" false 0
      (Value.str "z") []).2.2.2.2.2.2.2.2.2⟩

/-! ## Claim C2: env-file precedence -/

/-- C2: with a lookup that succeeds on every file, the
downward-counting env-file loop of `readEnvFile` equals a fold over
the reversed file list (last-declared file first); the loop only ever
appends to the seeded explicit-environment entries, so they stay at
the front; a line is appended only when it is non-empty, not
`#`-prefixed, and no existing entry already carries its key prefix;
and on the spec's worked example — explicit `environment: [A=1]`,
`env_file: [f1, f2]`, `f1` containing `A=2`, `f2` containing `B=3` —
the resulting environment is `[A=1, B=3]`. -/
theorem c2_env_file_precedence :
    (∀ (contents : String → String) (inFile : String) (files : List String)
        (vars : List String),
      readEnvLoop (fun f _ => .ok (contents f)) inFile files files.length vars
        = .ok (files.reverse.foldl (fun vs f => processContent vs (contents f)) vars)) ∧
    (∀ (contents : String → String) (files : List String) (vars : List String), ∃ rest,
      files.reverse.foldl (fun vs f => processContent vs (contents f)) vars = vars ++ rest) ∧
    (∀ (vars : List String) (line : String),
      processLine vars line = vars ∨
        (processLine vars line = vars ++ [stringsTrimSpace line] ∧
          0 < (stringsTrimSpace line).length ∧
          stringsHasPre (stringsTrimSpace line) "#" = false ∧
          vars.any (fun v => stringsHasPre v (keyOf (stringsTrimSpace line))) = false)) ∧
    readEnvFile (some (fun f _ => if f = "f1" then .ok "A=2" else .ok "B=3")) "compose.yml"
        [("environment", Value.seq [Value.str "A=1"]),
         ("env_file", Value.seq [Value.str "f1", Value.str "f2"])]
      = .ok [("environment", Value.seq [Value.str "A=1", Value.str "B=3"]),
             ("env_file", Value.seq [Value.str "f1", Value.str "f2"])] := by
  refine ⟨?_, ?_, ?_, rfl⟩
  · intro contents inFile files vars
    have h := readEnvLoop_eq_foldl_reverse contents inFile files files.length le_rfl vars
    simpa [List.take_length] using h
  · intro contents files vars
    exact foldl_processContent_prefix contents files.reverse vars
  · intro vars line
    unfold processLine
    dsimp only
    split_ifs with h1 h2
    · exact Or.inl rfl
    · refine Or.inr ⟨rfl, ?_, ?_, ?_⟩
      · simp at h1; exact h1.1
      · simp at h1; exact h1.2
      · simpa using h2
    · exact Or.inl rfl

/-! ## Claims C8 and C9: `readEnvFile` guards -/

/-- C8: a service whose `env_file` field normalizes to a non-empty
sequence makes `readEnvFile` fail, when no `ResourceLookup` is
supplied, with the error naming the referencing manifest file. -/
theorem c8_env_file_requires_lookup (inFile : String) (data : RawService) (v : Value)
    (files : List String)
    (hv : lookupAssoc data "env_file" = some v)
    (hconv : convertStringorslice v = .ok files)
    (hne : files ≠ []) :
    readEnvFile none inFile data
      = .error ("Can not use env_file in file " ++ inFile ++ " no mechanism provided to load files") := by
  have hlen : files.length ≠ 0 := by
    simpa [List.length_eq_zero] using hne
  simp [readEnvFile, hv, hconv, hlen]

/-- C8 witness: the nil-lookup theorem applied at a concrete service
with one env file. -/
theorem c8_env_file_requires_lookup_witness :
    readEnvFile none "docker-compose.yml" [("env_file", Value.str "a.env")]
      = .error ("Can not use env_file in file " ++ "docker-compose.yml" ++ " no mechanism provided to load files") :=
  c8_env_file_requires_lookup "docker-compose.yml" [("env_file", Value.str "a.env")]
    (Value.str "a.env") ["a.env"] rfl rfl (by simp)

/-- C9: a service with no `env_file` field, or whose `env_file`
normalizes to the empty sequence, passes through `readEnvFile`
unchanged and without error, whatever the lookup. -/
theorem c9_env_file_noop (rl : Option (String → String → Except String String))
    (inFile : String) (data : RawService) (v : Value) :
    (lookupAssoc data "env_file" = none → readEnvFile rl inFile data = .ok data) ∧
    (lookupAssoc data "env_file" = some v → convertStringorslice v = .ok [] →
      readEnvFile rl inFile data = .ok data) := by
  constructor
  · intro h
    simp [readEnvFile, h]
  · intro hv hc
    simp [readEnvFile, hv, hc]

/-- C9 witness: the no-op theorem applied at a service without
`env_file` and at a service with an empty `env_file` sequence. -/
theorem c9_env_file_noop_witness :
    readEnvFile none "compose.yml" [("image", Value.str "busybox")]
      = .ok [("image", Value.str "busybox")] ∧
    readEnvFile none "compose.yml" [("env_file", Value.seq [])]
      = .ok [("env_file", Value.seq [])] :=
  ⟨(c9_env_file_noop none "compose.yml" [("image", Value.str "busybox")] (Value.seq [])).1 rfl,
   (c9_env_file_noop none "compose.yml" [("env_file", Value.seq [])] (Value.seq [])).2 rfl rfl⟩

end Libcompose

namespace Libcompose

/-! ## Merge-pipeline helper lemmas -/

/-- No entry of `adjustValues`' output carries restart policy
`"false"`: a `"false"` is rewritten to `"no"` and everything else
already differs from `"false"`. -/
lemma adjustValues_no_false (configs : SvcMap) (name : String) (c : ServiceConfig)
    (h : (name, c) ∈ adjustValues configs) : c.Restart ≠ "false" := by
  simp only [adjustValues, List.mem_map] at h
  obtain ⟨⟨n2, c2⟩, hmem, heq⟩ := h
  dsimp at heq
  split at heq
  · cases heq
    intro hc
    have hno : ("no" : String) = "false" := hc
    exact absurd hno (by decide)
  · cases heq
    rename_i hr
    exact hr

/-- A successful `Merge` with no `Postprocess` hook returns exactly
the `adjustValues` image of what the version-specific merger
produced. -/
lemma merge_success_adjusted (a : MergeArgs) (options? : Option ParseOptions)
    (hpost : (optionsOrDefault options?).Postprocess = none)
    (v : String) (svcs : SvcMap) (vo : Option VolMap) (ne : Option NetMap)
    (h : Merge a options? = .ret v (some svcs) vo ne none) :
    ∃ sc, svcs = adjustValues sc := by
  unfold Merge at h
  simp only [hpost] at h
  repeat' split at h
  all_goals
    first
      | (injection h with h1 h2 h3 h4 h5
         exact ⟨_, (Option.some.inj h2).symm⟩)
      | simp at h

end Libcompose

namespace Libcompose

/-! ## Claim C3: version 3 aborts the merge -/

/-- C3 counterexample: with every earlier stage succeeding and version
"3", `Merge` ends in the `logrus.Fatal` process abort; no
`UnsupportedVersionError` (nor any error value) is returned to the
caller. -/
theorem c3_counterexample :
    (Merge
      { unmarshalConfig := .ok ⟨"3", [("web", [("image", Value.str "busybox")])], none, none⟩
        unmarshalRawMap := .ok []
        interpolate := fun _ v => .ok v
        mergeServicesV2 := fun _ _ => .ok []
        mergeServicesV1 := fun _ _ => .ok []
        convertServices := fun _ => .ok []
        convertVolumes := fun _ => .ok []
        convertNetworks := fun _ => .ok [] }
      none).isFatal = true ∧
    (Merge
      { unmarshalConfig := .ok ⟨"3", [("web", [("image", Value.str "busybox")])], none, none⟩
        unmarshalRawMap := .ok []
        interpolate := fun _ v => .ok v
        mergeServicesV2 := fun _ _ => .ok []
        mergeServicesV1 := fun _ _ => .ok []
        convertServices := fun _ => .ok []
        convertVolumes := fun _ => .ok []
        convertNetworks := fun _ => .ok [] }
      none).returnsError = false :=
  ⟨rfl, rfl⟩

/-- C3 (amended): once the pipeline reaches the version dispatch with
a version classifying as major 3, `Merge` aborts through
`logrus.Fatal` (a process exit that never returns to the caller)
instead of downgrading or producing any result. -/
theorem c3_version3_fatal (a : MergeArgs) (options? : Option ParseOptions)
    (version : String) (rs : RawServiceMap) (vols nets : List (String × Value))
    (hprep : mergePrepare a (optionsOrDefault options?) = .ok (version, rs, vols, nets))
    (hmajor : getComposeMajorVersion version = .ok 3) :
    Merge a options? = .fatal "Note: Compose file version 3 is not yet implemented" := by
  unfold Merge
  simp [hprep, hmajor]

/-- C3 witness: the fatal-dispatch theorem applied at a concrete
version-3 manifest whose earlier stages all succeed. -/
theorem c3_version3_fatal_witness :
    Merge
      { unmarshalConfig := .ok ⟨"3", [("web", [("image", Value.str "busybox")])], none, none⟩
        unmarshalRawMap := .ok []
        interpolate := fun _ v => .ok v
        mergeServicesV2 := fun _ _ => .ok []
        mergeServicesV1 := fun _ _ => .ok []
        convertServices := fun _ => .ok []
        convertVolumes := fun _ => .ok []
        convertNetworks := fun _ => .ok [] }
      none
    = .fatal "Note: Compose file version 3 is not yet implemented" :=
  c3_version3_fatal _ none "3" [("web", [("image", Value.str "busybox")])] [] [] rfl rfl

/-! ## Claim C7: errors return no partial result -/

/-- C7: whenever `Merge` returns with a non-nil error, the version
string is empty and the service, volume and network maps are all nil. -/
theorem c7_error_no_partial_result (a : MergeArgs) (options? : Option ParseOptions)
    (v : String) (s : Option SvcMap) (vo : Option VolMap) (ne : Option NetMap) (e : String)
    (h : Merge a options? = .ret v s vo ne (some e)) :
    v = "" ∧ s = none ∧ vo = none ∧ ne = none := by
  unfold Merge at h
  repeat' split at h
  all_goals
    first
      | (injection h with h1 h2 h3 h4 h5
         exact ⟨h1.symm, h2.symm, h3.symm, h4.symm⟩)
      | simp at h

/-- C7 witness: the no-partial-result theorem applied at a concrete
`Merge` whose document fails to unmarshal. -/
theorem c7_error_no_partial_result_witness :
    Merge
      { unmarshalConfig := .error "yaml: could not unmarshal"
        unmarshalRawMap := .ok []
        interpolate := fun _ v => .ok v
        mergeServicesV2 := fun _ _ => .ok []
        mergeServicesV1 := fun _ _ => .ok []
        convertServices := fun _ => .ok []
        convertVolumes := fun _ => .ok []
        convertNetworks := fun _ => .ok [] }
      none
      = .ret "" none none none (some "yaml: could not unmarshal") ∧
    (("" : String) = "" ∧ (none : Option SvcMap) = none ∧
      (none : Option VolMap) = none ∧ (none : Option NetMap) = none) :=
  ⟨rfl,
   c7_error_no_partial_result
     { unmarshalConfig := .error "yaml: could not unmarshal"
       unmarshalRawMap := .ok []
       interpolate := fun _ v => .ok v
       mergeServicesV2 := fun _ _ => .ok []
       mergeServicesV1 := fun _ _ => .ok []
       convertServices := fun _ => .ok []
       convertVolumes := fun _ => .ok []
       convertNetworks := fun _ => .ok [] }
     none "" none none none "yaml: could not unmarshal" rfl⟩

end Libcompose

namespace Libcompose

/-! ## Claim C6: restart-policy adjustment -/

/-- C6 counterexample: `adjustValues` runs before the `Postprocess`
hook, so a configured hook can hand a restart policy `"false"` back to
the caller: this successful `Merge` ends the pipeline returning a
`ServiceConfig` whose restart policy is the string `"false"`. -/
theorem c6_counterexample :
    Merge
      { unmarshalConfig := .ok ⟨"2", [("web", [("image", Value.str "busybox")])], none, none⟩
        unmarshalRawMap := .ok []
        interpolate := fun _ v => .ok v
        mergeServicesV2 := fun _ _ => .ok [("web", { Restart := "no", fields := [] })]
        mergeServicesV1 := fun _ _ => .ok []
        convertServices := fun _ => .ok []
        convertVolumes := fun _ => .ok []
        convertNetworks := fun _ => .ok [] }
      (some { Interpolate := true, Validate := true, Preprocess := none,
              Postprocess := some (fun _ => .ok [("web", { Restart := "false", fields := [] })]) })
    = .ret "2" (some [("web", { Restart := "false", fields := [] })]) (some []) (some []) none ∧
    ({ Restart := "false", fields := [] } : ServiceConfig).Restart = "false" :=
  ⟨rfl, rfl⟩

/-- C6 (amended): `adjustValues` rewrites every restart policy
`"false"` to `"no"` and leaves everything else alone, so no entry of
its output carries `"false"`; consequently, when no `Postprocess` hook
is configured, no `ServiceConfig` returned by a successful `Merge`
ends the pipeline with restart policy `"false"`. -/
theorem c6_restart_policy (a : MergeArgs) (options? : Option ParseOptions)
    (configs : SvcMap) (name : String) (c : ServiceConfig)
    (v : String) (svcs : SvcMap) (vo : Option VolMap) (ne : Option NetMap) :
    ((name, c) ∈ configs → c.Restart = "false" →
      (name, { c with Restart := "no" }) ∈ adjustValues configs) ∧
    ((name, c) ∈ adjustValues configs → c.Restart ≠ "false") ∧
    ((optionsOrDefault options?).Postprocess = none →
      Merge a options? = .ret v (some svcs) vo ne none →
      (name, c) ∈ svcs → c.Restart ≠ "false") := by
  refine ⟨?_, ?_, ?_⟩
  · intro hm hr
    simp only [adjustValues, List.mem_map]
    exact ⟨(name, c), hm, by simp [hr]⟩
  · exact adjustValues_no_false configs name c
  · intro hpost hMerge hmem
    obtain ⟨sc, rfl⟩ := merge_success_adjusted a options? hpost v svcs vo ne hMerge
    exact adjustValues_no_false sc name c hmem

/-- C6 witness: the adjustment theorem applied at a concrete service
map and a concrete hook-free successful `Merge`. -/
theorem c6_restart_policy_witness :
    ("web", ({ Restart := "no", fields := [] } : ServiceConfig))
      ∈ adjustValues [("web", { Restart := "false", fields := [] })] ∧
    ({ Restart := "no", fields := [] } : ServiceConfig).Restart ≠ "false" :=
  ⟨(c6_restart_policy
      { unmarshalConfig := .ok ⟨"2", [("web", [("image", Value.str "busybox")])], none, none⟩
        unmarshalRawMap := .ok []
        interpolate := fun _ v => .ok v
        mergeServicesV2 := fun _ _ => .ok [("web", { Restart := "false", fields := [] })]
        mergeServicesV1 := fun _ _ => .ok []
        convertServices := fun _ => .ok []
        convertVolumes := fun _ => .ok []
        convertNetworks := fun _ => .ok [] }
      none [("web", { Restart := "false", fields := [] })] "web"
      { Restart := "false", fields := [] } "2"
      [("web", { Restart := "no", fields := [] })] (some []) (some [])).1
      (by simp) rfl,
   (c6_restart_policy
      { unmarshalConfig := .ok ⟨"2", [("web", [("image", Value.str "busybox")])], none, none⟩
        unmarshalRawMap := .ok []
        interpolate := fun _ v => .ok v
        mergeServicesV2 := fun _ _ => .ok [("web", { Restart := "false", fields := [] })]
        mergeServicesV1 := fun _ _ => .ok []
        convertServices := fun _ => .ok []
        convertVolumes := fun _ => .ok []
        convertNetworks := fun _ => .ok [] }
      none [("web", { Restart := "false", fields := [] })] "web"
      { Restart := "no", fields := [] } "2"
      [("web", { Restart := "no", fields := [] })] (some []) (some [])).2.2
      rfl rfl (by simp)⟩

/-! ## Claim C10: nil options default -/

/-- C10: a nil `options` argument makes `Merge` behave exactly as with
`defaultParseOptions`, which switches interpolation and validation on
and configures no hooks — so interpolation runs by default. -/
theorem c10_nil_options_default (a : MergeArgs) :
    Merge a none = Merge a (some defaultParseOptions) ∧
    defaultParseOptions.Interpolate = true ∧
    defaultParseOptions.Validate = true ∧
    defaultParseOptions.Preprocess = none ∧
    defaultParseOptions.Postprocess = none :=
  ⟨rfl, rfl, rfl, rfl, rfl⟩

end Libcompose
